import Mathlib

/-!
Verification development for the job-event ingestion engine of the
simple-job-events-demo repository: the event wire decoder
(`parseEventPayload`, `parseSseText`, `emitFromResponse`), the job event
subscription loop (`subscribeToJobEvents`'s `poll`), and the run controller
hook (`useChatJobEvents`).  The TypeScript sources are embedded shallowly:
JSON values become an inductive `Json`, JS string operations are modelled on
the character-list view of `String`, thrown exceptions become explicit
error results, and `Date.now()` becomes an explicit `now` parameter.
-/

set_option maxHeartbeats 1000000

namespace JobEventsDemo

/-- ASCII whitespace trimmed by JS `String.prototype.trim` /
`trimStart` (the full JS set also has exotic Unicode spaces, which none of
the modelled inputs contain). -/
def jsWs (c : Char) : Bool :=
  c = ' ' || c = '\t' || c = '\n' || c = '\r' || c = '\x0b' || c = '\x0c'

/-- Drop trailing whitespace from a character list. -/
def dropRightWs (cs : List Char) : List Char :=
  (cs.reverse.dropWhile jsWs).reverse

/-- Trim both ends of a character list. -/
def trimList (cs : List Char) : List Char :=
  dropRightWs (cs.dropWhile jsWs)

/-- JS `s.trim()`. -/
def jsTrim (s : String) : String := String.mk (trimList s.data)

/-- JS `s.trimStart()`. -/
def jsTrimStart (s : String) : String := String.mk (s.data.dropWhile jsWs)

/-- JS `s.startsWith(p)`. -/
def jsStartsWith (s p : String) : Bool := p.data.isPrefixOf s.data

/-- Substring test at every position, for JS `s.includes(p)`. -/
def hasSubstrAux (pat : List Char) : List Char → Bool
  | [] => pat.isEmpty
  | c :: rest => pat.isPrefixOf (c :: rest) || hasSubstrAux pat rest

/-- JS `s.includes(p)`. -/
def hasSubstr (s pat : String) : Bool := hasSubstrAux pat.data s.data

/-- A JSON value as produced by `JSON.parse`.  Numbers keep their source
literal: the decoder never does arithmetic on them, it only tests JS
truthiness and echoes them through `JSON.stringify` (JS would canonicalize
exotic literals such as `1e2`, which none of the modelled inputs use). -/
inductive Json where
  | null : Json
  | bool (b : Bool) : Json
  | num (lit : String) : Json
  | str (s : String) : Json
  | arr (elems : List Json) : Json
  | obj (fields : List (String × Json)) : Json

mutual

/-- Boolean equality on JSON values. -/
def beqJson : Json → Json → Bool
  | .null, .null => true
  | .bool a, .bool b => a == b
  | .num a, .num b => a == b
  | .str a, .str b => a == b
  | .arr xs, .arr ys => beqJsonList xs ys
  | .obj xs, .obj ys => beqJsonFields xs ys
  | _, _ => false

/-- Boolean equality on lists of JSON values. -/
def beqJsonList : List Json → List Json → Bool
  | [], [] => true
  | x :: xs, y :: ys => beqJson x y && beqJsonList xs ys
  | _, _ => false

/-- Boolean equality on JSON object member lists. -/
def beqJsonFields : List (String × Json) → List (String × Json) → Bool
  | [], [] => true
  | (k, v) :: xs, (k', v') :: ys => k == k' && beqJson v v' && beqJsonFields xs ys
  | _, _ => false

end

mutual

theorem beqJson_iff : (a b : Json) → (beqJson a b = true ↔ a = b)
  | .null, b => by cases b <;> simp [beqJson]
  | .bool x, b => by cases b <;> simp [beqJson]
  | .num x, b => by cases b <;> simp [beqJson]
  | .str x, b => by cases b <;> simp [beqJson]
  | .arr xs, .null => by simp [beqJson]
  | .arr xs, .bool _ => by simp [beqJson]
  | .arr xs, .num _ => by simp [beqJson]
  | .arr xs, .str _ => by simp [beqJson]
  | .arr xs, .arr ys => by simp [beqJson, beqJsonList_iff xs ys]
  | .arr xs, .obj _ => by simp [beqJson]
  | .obj xs, .null => by simp [beqJson]
  | .obj xs, .bool _ => by simp [beqJson]
  | .obj xs, .num _ => by simp [beqJson]
  | .obj xs, .str _ => by simp [beqJson]
  | .obj xs, .arr _ => by simp [beqJson]
  | .obj xs, .obj ys => by simp [beqJson, beqJsonFields_iff xs ys]

theorem beqJsonList_iff : (xs ys : List Json) → (beqJsonList xs ys = true ↔ xs = ys)
  | [], [] => by simp [beqJsonList]
  | [], _ :: _ => by simp [beqJsonList]
  | _ :: _, [] => by simp [beqJsonList]
  | x :: xs, y :: ys => by
    simp [beqJsonList, beqJson_iff x y, beqJsonList_iff xs ys]

theorem beqJsonFields_iff :
    (xs ys : List (String × Json)) → (beqJsonFields xs ys = true ↔ xs = ys)
  | [], [] => by simp [beqJsonFields]
  | [], _ :: _ => by simp [beqJsonFields]
  | _ :: _, [] => by simp [beqJsonFields]
  | (k, v) :: xs, (k', v') :: ys => by
    simp [beqJsonFields, beqJson_iff v v', beqJsonFields_iff xs ys, and_assoc]

end

instance : DecidableEq Json := fun a b =>
  decidable_of_iff (beqJson a b = true) (beqJson_iff a b)

/-- Last-wins association lookup: `JSON.parse` lets a later duplicate key
overwrite an earlier one, so field access reads the last binding. -/
def lookupLast (k : String) : List (String × Json) → Option Json
  | [] => none
  | (k', v) :: rest =>
    match lookupLast k rest with
    | some r => some r
    | none => if k' = k then some v else none

/-- JS property access `j[k]`: `none` models `undefined`.  Property access
on a JS primitive yields `undefined`; access on JS `null` throws, which the
call sites model explicitly. -/
def Json.get (j : Json) (k : String) : Option Json :=
  match j with
  | .obj fields => lookupLast k fields
  | _ => none

/-- A JSON number literal denotes zero iff every mantissa digit is `0`. -/
def numIsZero (lit : String) : Bool :=
  (lit.data.takeWhile (fun c => !(c = 'e' || c = 'E'))).all
    (fun c => !c.isDigit || c = '0')

/-- JS truthiness of a JSON value. -/
def Json.truthy : Json → Bool
  | .null => false
  | .bool b => b
  | .num lit => !(numIsZero lit)
  | .str s => s != ""
  | .arr _ => true
  | .obj _ => true

/-- A JS `a || b || ...` chain over possibly-absent values: the first
present and truthy value wins. -/
def truthyChain : List (Option Json) → Option Json
  | [] => none
  | none :: rest => truthyChain rest
  | some v :: rest => if v.truthy then some v else truthyChain rest

/-- A JS `a ?? b ?? ...` chain: the first present non-null value wins. -/
def nullishChain : List (Option Json) → Option Json
  | [] => none
  | none :: rest => nullishChain rest
  | some v :: rest =>
    match v with
    | .null => nullishChain rest
    | _ => some v

/-- Lower-case hex digit. -/
def hexDigitChar (n : Nat) : Char :=
  if n < 10 then Char.ofNat ('0'.toNat + n) else Char.ofNat ('a'.toNat + n - 10)

/-- Escape one character as `JSON.stringify` does inside a string. -/
def escChar (c : Char) : String :=
  if c = '"' then "\\\""
  else if c = '\\' then "\\\\"
  else if c = '\n' then "\\n"
  else if c = '\r' then "\\r"
  else if c = '\t' then "\\t"
  else if c = '\x08' then "\\b"
  else if c = '\x0c' then "\\f"
  else if c.toNat < 32 then
    "\\u00" ++ String.mk [hexDigitChar (c.toNat / 16), hexDigitChar (c.toNat % 16)]
  else String.mk [c]

/-- `JSON.stringify` of a string. -/
def escapeJsonString (s : String) : String :=
  "\"" ++ String.join (s.data.map escChar) ++ "\""

mutual

/-- `JSON.stringify` of a value (used by the decoder as the message
fallback). -/
def Json.stringify : Json → String
  | .null => "null"
  | .bool true => "true"
  | .bool false => "false"
  | .num lit => lit
  | .str s => escapeJsonString s
  | .arr elems => "[" ++ stringifyElems elems ++ "]"
  | .obj fields => "\x7b" ++ stringifyFields fields ++ "\x7d"

/-- Comma-joined stringified array elements. -/
def stringifyElems : List Json → String
  | [] => ""
  | [x] => x.stringify
  | x :: rest => x.stringify ++ "," ++ stringifyElems rest

/-- Comma-joined stringified object members. -/
def stringifyFields : List (String × Json) → String
  | [] => ""
  | [(k, v)] => escapeJsonString k ++ ":" ++ v.stringify
  | (k, v) :: rest => escapeJsonString k ++ ":" ++ v.stringify ++ "," ++ stringifyFields rest

end

/-- JSON grammar whitespace (`JSON.parse` skips exactly these four). -/
def jsonWs (c : Char) : Bool :=
  c = ' ' || c = '\t' || c = '\n' || c = '\r'

/-- Skip JSON whitespace. -/
def skipJsonWs (cs : List Char) : List Char := cs.dropWhile jsonWs

/-- Hexadecimal digit value. -/
def hexVal (c : Char) : Option Nat :=
  if '0' ≤ c ∧ c ≤ '9' then some (c.toNat - '0'.toNat)
  else if 'a' ≤ c ∧ c ≤ 'f' then some (c.toNat - 'a'.toNat + 10)
  else if 'A' ≤ c ∧ c ≤ 'F' then some (c.toNat - 'A'.toNat + 10)
  else none

/-- Decode a single-character JSON string escape. -/
def escDecode (c : Char) : Option Char :=
  if c = '"' then some '"'
  else if c = '\\' then some '\\'
  else if c = '/' then some '/'
  else if c = 'b' then some '\x08'
  else if c = 'f' then some '\x0c'
  else if c = 'n' then some '\n'
  else if c = 'r' then some '\r'
  else if c = 't' then some '\t'
  else none

/-- Parse the body of a JSON string (after the opening quote), accumulator
reversed. -/
def parseStrAux : List Char → List Char → Option (String × List Char)
  | _, [] => none
  | acc, '"' :: rest => some (String.mk acc.reverse, rest)
  | acc, '\\' :: 'u' :: a :: b :: c :: d :: rest =>
    match hexVal a, hexVal b, hexVal c, hexVal d with
    | some h1, some h2, some h3, some h4 =>
      parseStrAux (Char.ofNat (((h1 * 16 + h2) * 16 + h3) * 16 + h4) :: acc) rest
    | _, _, _, _ => none
  | acc, '\\' :: e :: rest =>
    match escDecode e with
    | some c => parseStrAux (c :: acc) rest
    | none => none
  | _, ['\\'] => none
  | acc, c :: rest => if c.toNat < 32 then none else parseStrAux (c :: acc) rest

/-- Parse a JSON number starting at the given characters, returning its
source literal. -/
def parseNum (cs : List Char) : Option (Json × List Char) :=
  let (neg, cs1) := match cs with
    | '-' :: r => (true, r)
    | _ => (false, cs)
  match cs1 with
  | [] => none
  | c :: _ =>
    if !c.isDigit then none
    else
      let (intChars, cs2) :=
        if c = '0' then (['0'], cs1.tail) else cs1.span Char.isDigit
      let fracRes : Option (List Char × List Char) :=
        match cs2 with
        | '.' :: r =>
          let (ds, r2) := r.span Char.isDigit
          if ds.isEmpty then none else some ('.' :: ds, r2)
        | _ => some ([], cs2)
      match fracRes with
      | none => none
      | some (fracChars, cs3) =>
        let expRes : Option (List Char × List Char) :=
          match cs3 with
          | e :: r =>
            if e = 'e' ∨ e = 'E' then
              let (sgn, r1) := match r with
                | s :: r' => if s = '+' ∨ s = '-' then ([s], r') else ([], s :: r')
                | [] => ([], [])
              let (ds, r2) := r1.span Char.isDigit
              if ds.isEmpty then none else some (e :: (sgn ++ ds), r2)
            else some ([], cs3)
          | [] => some ([], cs3)
        match expRes with
        | none => none
        | some (expChars, cs4) =>
          some (Json.num (String.mk ((if neg then ['-'] else []) ++ intChars ++ fracChars ++ expChars)), cs4)

mutual

/-- Fueled parser for one JSON value. -/
def parseVal : Nat → List Char → Option (Json × List Char)
  | 0, _ => none
  | fuel + 1, cs =>
    match skipJsonWs cs with
    | 'n' :: 'u' :: 'l' :: 'l' :: rest => some (.null, rest)
    | 't' :: 'r' :: 'u' :: 'e' :: rest => some (.bool true, rest)
    | 'f' :: 'a' :: 'l' :: 's' :: 'e' :: rest => some (.bool false, rest)
    | '"' :: rest =>
      match parseStrAux [] rest with
      | some (s, r) => some (.str s, r)
      | none => none
    | '[' :: rest =>
      match skipJsonWs rest with
      | ']' :: r2 => some (.arr [], r2)
      | r2 =>
        match parseElems fuel r2 with
        | some (vs, r3) => some (.arr vs, r3)
        | none => none
    | '\x7b' :: rest =>
      match skipJsonWs rest with
      | '\x7d' :: r2 => some (.obj [], r2)
      | r2 =>
        match parseMembers fuel r2 with
        | some (ms, r3) => some (.obj ms, r3)
        | none => none
    | c :: rest => if c = '-' ∨ c.isDigit then parseNum (c :: rest) else none
    | [] => none

/-- Fueled parser for the elements of a non-empty JSON array. -/
def parseElems : Nat → List Char → Option (List Json × List Char)
  | 0, _ => none
  | fuel + 1, cs =>
    match parseVal fuel cs with
    | none => none
    | some (v, rest) =>
      match skipJsonWs rest with
      | ',' :: r2 =>
        match parseElems fuel r2 with
        | some (vs, r3) => some (v :: vs, r3)
        | none => none
      | ']' :: r2 => some ([v], r2)
      | _ => none

/-- Fueled parser for the members of a non-empty JSON object. -/
def parseMembers : Nat → List Char → Option (List (String × Json) × List Char)
  | 0, _ => none
  | fuel + 1, cs =>
    match skipJsonWs cs with
    | '"' :: r =>
      match parseStrAux [] r with
      | none => none
      | some (k, r2) =>
        match skipJsonWs r2 with
        | ':' :: r3 =>
          match parseVal fuel r3 with
          | none => none
          | some (v, r4) =>
            match skipJsonWs r4 with
            | ',' :: r5 =>
              match parseMembers fuel r5 with
              | some (ms, r6) => some ((k, v) :: ms, r6)
              | none => none
            | '\x7d' :: r5 => some ([(k, v)], r5)
            | _ => none
        | _ => none
    | _ => none

end

/-- `JSON.parse`: `none` models a thrown `SyntaxError`. -/
def jsonParse (s : String) : Option Json :=
  match parseVal (s.data.length + 1) s.data with
  | some (v, rest) => if skipJsonWs rest = [] then some v else none
  | none => none

/-- The event kinds of `@/types/events`. -/
inductive EventType where
  | workflow
  | phase
  | agent
  | task
  | chatToken
  | chatLifecycle
  | unknown
deriving DecidableEq

/-- Modelled from the spec: `getEventType` is declared in `@/types/events`,
a module whose source is not part of this snapshot (only its callers are).
Spec §3 defines the kind as derived from the `stepId` by case-sensitive,
first-match-wins prefix matching: `workflow:` → workflow, `phase:` → phase,
`agent:...:task-` → task, `agent:...` → agent, `chat:token` or
`chat:tokens` → chatToken (the singular prefix also matches the plural
form), `chat:request`/`chat:response`/`chat:complete` → chatLifecycle,
anything else → unknown. -/
def getEventType (stepId : String) : EventType :=
  if jsStartsWith stepId ("workflow:") then .workflow
  else if jsStartsWith stepId ("phase:") then .phase
  else if jsStartsWith stepId ("agent:") then
    (if hasSubstr stepId (":task-") then .task else .agent)
  else if jsStartsWith stepId ("chat:token") then .chatToken
  else if jsStartsWith stepId ("chat:request") || jsStartsWith stepId ("chat:response")
      || jsStartsWith stepId ("chat:complete") then .chatLifecycle
  else .unknown

/-- Modelled from the spec: the kind is a function of the `stepId` string;
a non-string step id (possible at runtime when a record carries e.g. a
numeric `SeqID`) matches none of the spec's string prefixes. -/
def getEventTypeJ : Json → EventType
  | .str s => getEventType s
  | _ => .unknown

/-- The argument of a `new Date(...)` call: either a value taken from the
record or the `Date.now()` fallback, kept symbolic. -/
inductive DateVal where
  | ofJson (v : Json)
  | ofNow (millis : Nat)
deriving DecidableEq

/-- A decoded `JobEvent`.  The TS interface types `step_id`, `message` as
strings, but the duck-typed extraction can leave any truthy JSON value in
them at runtime, so the model keeps the raw JSON value. -/
structure JobEvent where
  step_id : Json
  message : Json
  finished : Json
  timestamp : DateVal
  type : EventType
deriving DecidableEq

/-- The record branch of `parseEventPayload` (field extraction from a
parsed JSON value).  JS throws a `TypeError` when `record` is `null`
because of the `record.step_id` access; `.error ()` models that throw. -/
def parseRecord (record : Json) (fallback : Option Json) (now : Nat) :
    Except Unit (Option JobEvent) :=
  match record with
  | .null => .error ()
  | _ =>
    let fget : String → Option Json := fun k => fallback.bind (fun f => f.get k)
    let stepId := (truthyChain
      [record.get ("step_id"), record.get ("stepId"), record.get ("step-id"),
       record.get ("eventID"), record.get ("EventID"), record.get ("SeqID"),
       record.get ("seqId"), fget ("eventID"), fget ("EventID"),
       fget ("SeqID")]).getD (.str "unknown")
    let message := (truthyChain
      [record.get ("message"), record.get ("msg")]).getD (.str record.stringify)
    let finished := (nullishChain
      [record.get ("finished"), record.get ("Finished")]).getD (.bool false)
    let timestamp :=
      match truthyChain
        [record.get ("timestamp"), record.get ("Timestamp"),
         fget ("timestamp"), fget ("Timestamp")] with
      | some v => DateVal.ofJson v
      | none => DateVal.ofNow now
    .ok (some { step_id := stepId, message := message, finished := finished,
                timestamp := timestamp, type := getEventTypeJ stepId })

/-- `parseEventPayload` of the API client: decode one raw payload into at
most one `JobEvent` (`.ok none` models the `null` return, `.error ()` a
thrown `TypeError`). -/
def parseEventPayload (payload : Json) (fallback : Option Json) (now : Nat) :
    Except Unit (Option JobEvent) :=
  match payload with
  | .null => .ok none
  | .str s =>
    let trimmed := jsTrim s
    if trimmed = "" then .ok none
    else
      match jsonParse trimmed with
      | none =>
        .ok (some { step_id := .str "unknown", message := .str trimmed,
                    finished := .bool false, timestamp := .ofNow now,
                    type := getEventType ("") })
      | some data => parseRecord data fallback now
  | _ => parseRecord payload fallback now

/-- One flushed SSE frame: its pending `id` (possibly empty) and the
joined `data` buffer. -/
structure SseEntry where
  id : Option String
  data : String
deriving DecidableEq

/-- Split a character list at every newline. -/
def splitNl : List Char → List (List Char)
  | [] => [[]]
  | '\n' :: rest => [] :: splitNl rest
  | c :: rest =>
    match splitNl rest with
    | l :: ls => (c :: l) :: ls
    | [] => [[c]]

/-- Drop one trailing carriage return, if present. -/
def stripCR (l : List Char) : List Char :=
  if l.getLast? = some '\r' then l.dropLast else l

/-- Apply `f` to every element except the last. -/
def mapButLast (f : List Char → List Char) : List (List Char) → List (List Char)
  | [] => []
  | [l] => [l]
  | l :: rest => f l :: mapButLast f rest

/-- JS `text.split(/\r?\n/)`: split at each newline, stripping the `\r` of
a `\r\n` pair (a trailing `\r` not followed by `\n` stays). -/
def splitLines (text : String) : List String :=
  (mapButLast stripCR (splitNl text.data)).map String.mk

/-- JS `dataLines.join('\n')`. -/
def joinNl : List String → String
  | [] => ""
  | [s] => s
  | s :: rest => s ++ "\n" ++ joinNl rest

/-- The flush condition of `pushEvent`: JS `currentId || dataLines.length > 0`
(an empty-string id is falsy). -/
def flushCond (cid : Option String) (dls : List String) : Bool :=
  (match cid with
   | some s => s != ""
   | none => false) || !dls.isEmpty

/-- `pushEvent` of `parseSseText`: flush the pending frame if any. -/
def flushEntry (cid : Option String) (dls : List String) : List SseEntry :=
  if flushCond cid dls then [⟨cid, joinNl dls⟩] else []

/-- The line loop of `parseSseText`, carrying the pending id and data
lines.  Line dispatch follows the source order: blank line flushes, `:`
comments are skipped, `id:` sets the pending id (trimmed), `data:` appends
(with `trimStart`), anything else is ignored. -/
def parseSseLines : List String → Option String → List String → List SseEntry
  | [], cid, dls => flushEntry cid dls
  | l :: rest, cid, dls =>
    match l.data with
    | [] => flushEntry cid dls ++ parseSseLines rest none []
    | ':' :: _ => parseSseLines rest cid dls
    | 'i' :: 'd' :: ':' :: r => parseSseLines rest (some (jsTrim (String.mk r))) dls
    | 'd' :: 'a' :: 't' :: 'a' :: ':' :: r =>
      parseSseLines rest cid (dls ++ [jsTrimStart (String.mk r)])
    | _ => parseSseLines rest cid dls

/-- `parseSseText` of the API client. -/
def parseSseText (text : String) : List SseEntry :=
  parseSseLines (splitLines text) none []

/-- The result of one `emitFromResponse` call: the cursor (`lastSeqId`)
after the call, the events passed to `onEvent` in order, and whether the
call threw (with any events emitted before the throw kept). -/
structure EmitResult where
  cursor : Option Json
  events : List JobEvent
  threw : Bool
deriving DecidableEq

/-- JS `entry.data ?? entry` for an array element. -/
def payloadOf (entry : Json) : Json :=
  match entry.get ("data") with
  | some v =>
    match v with
    | .null => entry
    | _ => v
  | none => entry

/-- JS `(entry.SeqID as string) || (entry.seqId as string) || null`. -/
def seqIdOf (entry : Json) : Option Json :=
  truthyChain [entry.get ("SeqID"), entry.get ("seqId")]

/-- The SSE half of `emitFromResponse`: walk the flushed frames, update
the cursor from truthy ids, decode each frame's data string. -/
def emitSseEntries (now : Nat) : List SseEntry → Option Json → EmitResult
  | [], c => ⟨c, [], false⟩
  | e :: rest, c =>
    let c' := match e.id with
      | some i => if i != "" then some (.str i) else c
      | none => c
    let fb : Option Json := match e.id with
      | some i => if i != "" then some (.obj [("SeqID", .str i)]) else none
      | none => none
    match parseEventPayload (.str e.data) fb now with
    | .error _ => ⟨c', [], true⟩
    | .ok none => emitSseEntries now rest c'
    | .ok (some ev) =>
      let r := emitSseEntries now rest c'
      ⟨r.cursor, ev :: r.events, r.threw⟩

/-- JS `Array.isArray(raw) ? raw : (raw.events || raw.items || [raw])`
followed by `for..of`: a truthy `events`/`items` that is neither an array
nor a string (strings iterate their code points) is not iterable and the
loop head throws. -/
def itemsOf (raw : Json) : Except Unit (List Json) :=
  match raw with
  | .arr xs => .ok xs
  | _ =>
    match truthyChain [raw.get ("events"), raw.get ("items")] with
    | some (.arr xs) => .ok xs
    | some (.str s) => .ok (s.data.map (fun c => .str (String.mk [c])))
    | some _ => .error ()
    | none => .ok [raw]

/-- The array half of `emitFromResponse`: per element update the cursor
from `SeqID`/`seqId`, decode `entry.data ?? entry` with the element itself
as fallback context.  A `null` element throws at the `entry.SeqID`
access. -/
def emitItems (now : Nat) : List Json → Option Json → EmitResult
  | [], c => ⟨c, [], false⟩
  | e :: rest, c =>
    match e with
    | .null => ⟨c, [], true⟩
    | _ =>
      let c' := match seqIdOf e with
        | some v => some v
        | none => c
      match parseEventPayload (payloadOf e) (some e) now with
      | .error _ => ⟨c', [], true⟩
      | .ok none => emitItems now rest c'
      | .ok (some ev) =>
        let r := emitItems now rest c'
        ⟨r.cursor, ev :: r.events, r.threw⟩

/-- `emitFromResponse` of the API client. -/
def emitFromResponse (raw : Json) (c : Option Json) (now : Nat) : EmitResult :=
  match raw with
  | .null => ⟨c, [], false⟩
  | .str s =>
    let trimmed := jsTrim s
    if trimmed = "" then ⟨c, [], false⟩
    else if jsStartsWith trimmed ("id:") || jsStartsWith trimmed ("data:")
        || hasSubstr trimmed ("\ndata:") then
      emitSseEntries now (parseSseText trimmed) c
    else
      match parseEventPayload (.str trimmed) none now with
      | .error _ => ⟨c, [], true⟩
      | .ok none => ⟨c, [], false⟩
      | .ok (some ev) => ⟨c, [ev], false⟩
  | _ =>
    match itemsOf raw with
    | .error _ => ⟨c, [], true⟩
    | .ok items => emitItems now items c

/-- The decode step of one poll iteration:
`try { emitFromResponse(JSON.parse(text)) } catch { emitFromResponse(text) }`.
Cursor updates made before a throw persist (the closure mutates
`lastSeqId` in place), events emitted before the throw were already
delivered, and a throw out of the catch branch propagates. -/
def decodeBody (text : String) (c : Option Json) (now : Nat) : EmitResult :=
  match jsonParse text with
  | some j =>
    let r1 := emitFromResponse j c now
    if r1.threw then
      let r2 := emitFromResponse (.str text) r1.cursor now
      ⟨r2.cursor, r1.events ++ r2.events, r2.threw⟩
    else r1
  | none => emitFromResponse (.str text) c now

instance {ε α : Type} [DecidableEq ε] [DecidableEq α] : DecidableEq (Except ε α) :=
  fun a b =>
    match a, b with
    | .ok x, .ok y =>
      if h : x = y then isTrue (by rw [h]) else isFalse (by simp [h])
    | .error x, .error y =>
      if h : x = y then isTrue (by rw [h]) else isFalse (by simp [h])
    | .ok _, .error _ => isFalse (by simp)
    | .error _, .ok _ => isFalse (by simp)

/-- One HTTP response observed by the poll loop: its status code and the
text of its body. -/
structure Resp where
  status : Nat
  body : String
deriving DecidableEq

/-- One callback invocation observable from a subscription: an `onEvent`
delivery, the `onComplete` first-connect signal, or an `onError` call. -/
inductive Out where
  | event (e : JobEvent)
  | firstConnect
  | fatalError (msg : String)
deriving DecidableEq

/-- How the `poll` promise ended: the loop ran off the supplied responses
(or saw the abort flag), or an exception with the given JS `name` and
`message` escaped. -/
inductive LoopExit where
  | finished
  | thrown (name : String) (msg : String)
deriving DecidableEq

/-- `markConnected`: fire `onComplete` once, then latch `hasConnected`. -/
def markConnected (hc : Bool) : List Out × Bool :=
  if hc then ([], true) else ([Out.firstConnect], true)

/-- The `poll` loop of `subscribeToJobEvents`, run over a finite list of
responses (the loop itself is unbounded; the list models the responses the
server produces while the subscription lives).  Returns the callback
outputs in order, the final `hasConnected` flag and cursor, and how the
loop ended.  Per iteration: 204 marks connected and continues; a status
that is neither 2xx nor 101 throws an `Error` naming the status and body;
otherwise the loop marks connected, skips blank bodies, and decodes the
body, a decode throw escaping the loop. -/
def pollGo (now : Nat) : List Resp → Bool → Option Json →
    List Out × Bool × Option Json × LoopExit
  | [], hc, c => ([], hc, c, .finished)
  | r :: rest, hc, c =>
    if r.status = 204 then
      let m := markConnected hc
      let t := pollGo now rest m.2 c
      (m.1 ++ t.1, t.2)
    else if ¬(200 ≤ r.status ∧ r.status < 300) ∧ r.status ≠ 101 then
      ([], hc, c, .thrown ("Error")
        ("Events request failed: " ++ toString r.status ++ " - " ++ r.body))
    else
      let m := markConnected hc
      if jsTrim r.body = "" then
        let t := pollGo now rest m.2 c
        (m.1 ++ t.1, t.2)
      else
        let d := decodeBody r.body c now
        if d.threw then
          (m.1 ++ d.events.map Out.event, m.2, d.cursor,
           .thrown ("TypeError") ("Cannot read properties of null"))
        else
          let t := pollGo now rest m.2 d.cursor
          (m.1 ++ d.events.map Out.event ++ t.1, t.2)

/-- The `poll().catch(...)` wrapper: an escaped exception reaches
`onError` unless its `name` is `AbortError`. -/
def pollCatch (r : List Out × Bool × Option Json × LoopExit) : List Out :=
  match r.2.2.2 with
  | .finished => r.1
  | .thrown name msg => if name = "AbortError" then r.1 else r.1 ++ [.fatalError msg]

/-- The `poll` loop when the subscription's cancel function fires after
`n` completed iterations: the loop-top `aborted` check ends the loop
silently, or — when a request was in flight (`inflight`) — the aborted
`fetch` rejects with an `AbortError` that escapes the loop. -/
def pollAborted (now : Nat) : List Resp → Nat → Bool → Bool → Option Json →
    List Out × Bool × Option Json × LoopExit
  | _, 0, inflight, hc, c =>
    ([], hc, c,
     if inflight then .thrown ("AbortError") ("The user aborted a request.")
     else .finished)
  | [], _ + 1, _, hc, c => ([], hc, c, .finished)
  | r :: rest, n + 1, inflight, hc, c =>
    if r.status = 204 then
      let m := markConnected hc
      let t := pollAborted now rest n inflight m.2 c
      (m.1 ++ t.1, t.2)
    else if ¬(200 ≤ r.status ∧ r.status < 300) ∧ r.status ≠ 101 then
      ([], hc, c, .thrown ("Error")
        ("Events request failed: " ++ toString r.status ++ " - " ++ r.body))
    else
      let m := markConnected hc
      if jsTrim r.body = "" then
        let t := pollAborted now rest n inflight m.2 c
        (m.1 ++ t.1, t.2)
      else
        let d := decodeBody r.body c now
        if d.threw then
          (m.1 ++ d.events.map Out.event, m.2, d.cursor,
           .thrown ("TypeError") ("Cannot read properties of null"))
        else
          let t := pollAborted now rest n inflight m.2 d.cursor
          (m.1 ++ d.events.map Out.event ++ t.1, t.2)

/-- Run status of the `useChatJobEvents` hook. -/
inductive ChatRunStatus where
  | idle
  | submitting
  | streaming
  | success
  | error
deriving DecidableEq

/-- Events-connection status of the `useChatJobEvents` hook. -/
inductive ConnStatus where
  | idle
  | waiting
  | querying
  | connected
  | error
deriving DecidableEq

/-- The pieces of `useChatJobEvents` state the claims are about: the React
state cells plus the refs.  `abortRef`/`pollTimer` model whether a
subscription cancel function / `setInterval` handle is currently held;
`assistantStreaming` models whether the placeholder assistant transcript
entry still has a part in the `streaming` state. -/
structure HookState where
  status : ChatRunStatus
  jobId : Option String
  error : Option String
  tokenEvents : Nat
  eventsConnectionStatus : ConnStatus
  abortRef : Bool
  pollTimer : Bool
  connectedRef : Bool
  assistantStreaming : Bool
deriving DecidableEq

/-- `cleanup` of the hook: abort the subscription, clear the interval,
reset the connected ref. -/
def cleanup (st : HookState) : HookState :=
  { st with abortRef := false, pollTimer := false, connectedRef := false }

/-- `finalizeAssistant`: mark the placeholder entry's text parts done. -/
def finalizeAssistant (st : HookState) : HookState :=
  { st with assistantStreaming := false }

/-- The `onError` callback the hook passes to `subscribeToJobEvents`
(the `streamError => ...` handler): it sets the connection status, the
error message and the run status, and finalizes the placeholder — and
nothing else. -/
def handleStreamError (st : HookState) (msg : String) : HookState :=
  finalizeAssistant
    { st with eventsConnectionStatus := .error, error := some msg, status := .error }

/-- `reset` of the hook: cleanup, then restore every state cell to its
idle default. -/
def resetHook (st : HookState) : HookState :=
  { cleanup st with
    status := .idle, jobId := none, error := none, tokenEvents := 0,
    eventsConnectionStatus := .idle, assistantStreaming := false }

/-- A well-formed SSE frame for the round-trip statement: an id line and a
single data line. -/
structure SseFrame where
  id : String
  data : String
deriving DecidableEq

/-- Render frames the way the spec describes an SSE body: `id:` line, then
`data:` line, frames separated by blank lines. -/
def renderSseLines : List SseFrame → List String
  | [] => []
  | [f] => [String.mk ('i' :: 'd' :: ':' :: ' ' :: f.id.data),
            String.mk ('d' :: 'a' :: 't' :: 'a' :: ':' :: f.data.data)]
  | f :: rest =>
    String.mk ('i' :: 'd' :: ':' :: ' ' :: f.id.data) ::
    String.mk ('d' :: 'a' :: 't' :: 'a' :: ':' :: f.data.data) :: "" ::
    renderSseLines rest

/-- Well-formedness of one rendered frame: id and data carry no
surrounding whitespace, are non-empty, and the data payload does not
JSON-parse to `null` (which would make the decoder throw). -/
def wfFrame (f : SseFrame) : Prop :=
  jsTrim f.id = f.id ∧ f.id ≠ "" ∧ jsTrim f.data = f.data ∧
    jsTrimStart f.data = f.data ∧ f.data ≠ "" ∧ jsonParse f.data ≠ some Json.null

/-- Array elements for which the decoder's per-element decode cannot drop
or throw: the element is a JSON object whose `data` field, when it is a
string, is non-blank and does not JSON-parse to `null`. -/
def dataFieldOk (e : Json) : Prop :=
  match e.get ("data") with
  | some (Json.str s) => jsTrim s ≠ "" ∧ jsonParse (jsTrim s) ≠ some Json.null
  | _ => True

/-- Whether a JSON value is an object. -/
def Json.isObj : Json → Bool
  | .obj _ => true
  | _ => false

/-- Whether a callback invocation is the first-connect signal. -/
def isFirstConnect : Out → Bool
  | .firstConnect => true
  | _ => false

theorem markConnected_snd (hc : Bool) : (markConnected hc).2 = true := by
  cases hc <;> rfl

theorem parseRecord_ok (r : Json) (fb : Option Json) (now : Nat) (h : r ≠ Json.null) :
    ∃ ev, parseRecord r fb now = .ok (some ev) := by
  cases r with
  | null => exact absurd rfl h
  | bool b => exact ⟨_, rfl⟩
  | num lit => exact ⟨_, rfl⟩
  | str s => exact ⟨_, rfl⟩
  | arr xs => exact ⟨_, rfl⟩
  | obj fs => exact ⟨_, rfl⟩

theorem parseRecord_type (r : Json) (fb : Option Json) (now : Nat) (ev : JobEvent)
    (h : parseRecord r fb now = .ok (some ev)) : ev.type = getEventTypeJ ev.step_id := by
  cases r <;>
    simp only [parseRecord, Except.ok.injEq, Option.some.injEq] at h
  case null => exact absurd h (by simp)
  all_goals subst h; rfl

theorem parseEventPayload_type (payload : Json) (fb : Option Json) (now : Nat)
    (ev : JobEvent) (h : parseEventPayload payload fb now = .ok (some ev)) :
    ev.type = getEventTypeJ ev.step_id := by
  cases payload with
  | null => simp [parseEventPayload] at h
  | str s =>
    simp only [parseEventPayload] at h
    split at h
    · simp at h
    · split at h
      · simp only [Except.ok.injEq, Option.some.injEq] at h
        subst h
        rfl
      · exact parseRecord_type _ fb now ev h
  | bool b => exact parseRecord_type (Json.bool b) fb now ev h
  | num lit => exact parseRecord_type (Json.num lit) fb now ev h
  | arr xs => exact parseRecord_type (Json.arr xs) fb now ev h
  | obj fs => exact parseRecord_type (Json.obj fs) fb now ev h

/-- Claim C1, counterexample: a valid JSON array holding one object whose
`data` field is the empty string decodes to zero events, not one event per
array element — `parseEventPayload('')` returns `null` and the element is
dropped. -/
theorem c1_counterexample :
    emitFromResponse (Json.arr [Json.obj [("data", Json.str "")]]) none 0 =
      ⟨none, [], false⟩ := by
  decide

/-- Claim C2, counterexample: the SSE body `"id: 1\ndata:"` holds one
data-terminated frame, yet the decoder emits zero sub-events for it (the
frame's empty data string is rejected), while the cursor still advances to
`"1"`. -/
theorem c2_counterexample :
    decodeBody "id: 1\ndata:" none 0 = ⟨some (.str "1"), [], false⟩ := by
  decide

/-- Claim C3, counterexample: the decoder does throw on some bodies — the
SSE body `"data: null"` has a frame whose data JSON-parses to `null`, so
`parseEventPayload` hits `record.step_id` on `null` and the `TypeError`
escapes the decode (the `threw` flag below). -/
theorem c3_counterexample :
    decodeBody "data: null" none 0 = ⟨none, [], true⟩ := by
  decide

/-- Claim C4, counterexample: decoding the same body at two different
client clock readings yields different event sequences — the fallback
timestamp is `Date.now()`, so the decoder is not pure across time. -/
theorem c4_counterexample :
    (decodeBody "hello" none 0).events ≠ (decodeBody "hello" none 1).events := by
  decide

/-- Claim C9, counterexample: after the hook's stream-error handler runs
on a state with a live poll timer and subscription handle, both are still
present — the handler does not call `cleanup`, so the status-poll timer
keeps running, contrary to the claimed teardown. -/
theorem c9_counterexample :
    (handleStreamError
      ⟨.streaming, some "job-1", none, 3, .connected, true, true, true, true⟩
      "boom").pollTimer = true ∧
    (handleStreamError
      ⟨.streaming, some "job-1", none, 3, .connected, true, true, true, true⟩
      "boom").abortRef = true := by
  exact ⟨rfl, rfl⟩

/-- Claim C9 (corrected): the subscription's `onFatalError` handler in the
hook records the error message, flips the run status to `error`, marks the
events connection as errored and finalizes the placeholder entry — but it
performs no teardown: the poll timer, the subscription handle and the
connected ref are all left exactly as they were. -/
theorem c9_stream_error_handler (st : HookState) (msg : String) :
    (handleStreamError st msg).status = .error ∧
    (handleStreamError st msg).error = some msg ∧
    (handleStreamError st msg).eventsConnectionStatus = .error ∧
    (handleStreamError st msg).assistantStreaming = false ∧
    (handleStreamError st msg).pollTimer = st.pollTimer ∧
    (handleStreamError st msg).abortRef = st.abortRef ∧
    (handleStreamError st msg).connectedRef = st.connectedRef := by
  exact ⟨rfl, rfl, rfl, rfl, rfl, rfl, rfl⟩

/-- Claim C5: the event kind is a pure function of the step id, computed
by case-sensitive first-match-wins prefix matching — witnessed on the five
quoted examples — and every event the payload decoder produces carries the
kind computed from its own `step_id`. -/
theorem c5_kind_function :
    getEventType "chat:token:5" = .chatToken ∧
    getEventType "chat:tokens:5" = .chatToken ∧
    getEventType "phase:research" = .phase ∧
    getEventType "agent:search:web:task-2" = .task ∧
    getEventType "bogus" = .unknown ∧
    ∀ (payload : Json) (fb : Option Json) (now : Nat) (ev : JobEvent),
      parseEventPayload payload fb now = .ok (some ev) →
      ev.type = getEventTypeJ ev.step_id := by
  refine ⟨by decide, by decide, by decide, by decide, by decide, ?_⟩
  intro payload fb now ev h
  exact parseEventPayload_type payload fb now ev h

/-- Witness for C5: the last conjunct applied at a concrete payload. -/
theorem c5_witness :
    (⟨.str "unknown", .str "x", .bool false, .ofNow 0, .unknown⟩ : JobEvent).type =
      getEventTypeJ (Json.str "unknown") := by
  exact c5_kind_function.2.2.2.2.2 (.str "x") none 0
    ⟨.str "unknown", .str "x", .bool false, .ofNow 0, .unknown⟩ (by decide)

/-- Claim C10: an SSE frame consisting of only an `id:` line advances the
cursor to that id but emits no event, because the frame's empty data
string is rejected by the payload parser; shown generally at the frame
level and end-to-end on the body `"id: 7"`. -/
theorem c10_id_only_frame :
    (∀ (c : Option Json) (now : Nat) (i : String), i ≠ "" →
       emitSseEntries now [⟨some i, ""⟩] c = ⟨some (.str i), [], false⟩) ∧
    decodeBody "id: 7" none 0 = ⟨some (.str "7"), [], false⟩ := by
  constructor
  · intro c now i hi
    have hb : (i != "") = true := by simpa using hi
    simp [emitSseEntries, hb, parseEventPayload, jsTrim, trimList, dropRightWs]
  · decide

/-- Witness for C10's frame-level statement at a concrete id. -/
theorem c10_witness :
    emitSseEntries 0 [⟨some "9", ""⟩] none = ⟨some (.str "9"), [], false⟩ := by
  exact c10_id_only_frame.1 none 0 "9" (by decide)

/-- Claim C3 (corrected): string payloads never make the decoder throw
unless they JSON-parse to `null`; a string blank after trimming yields
zero events, and a non-empty string that fails JSON parsing yields exactly
one `unknown` event carrying the trimmed text as message, not finished,
timestamped with the client clock. -/
theorem c3_string_decode (s : String) (fb : Option Json) (now : Nat) :
    (jsTrim s = "" → parseEventPayload (.str s) fb now = .ok none) ∧
    (jsTrim s ≠ "" → jsonParse (jsTrim s) = none →
      parseEventPayload (.str s) fb now =
        .ok (some ⟨.str "unknown", .str (jsTrim s), .bool false, .ofNow now,
                   .unknown⟩)) ∧
    (jsonParse (jsTrim s) ≠ some Json.null →
      parseEventPayload (.str s) fb now ≠ .error ()) := by
  refine ⟨?_, ?_, ?_⟩
  · intro h
    simp [parseEventPayload, h]
  · intro h hp
    simp only [parseEventPayload, hp, if_neg h]
    have : getEventType ("") = EventType.unknown := by decide
    rw [this]
  · intro h
    by_cases he : jsTrim s = ""
    · simp [parseEventPayload, he]
    · rcases hj : jsonParse (jsTrim s) with _ | data
      · simp [parseEventPayload, he, hj]
      · have hd : data ≠ Json.null := by
          rintro rfl
          exact h hj
        obtain ⟨ev, hev⟩ := parseRecord_ok data fb now hd
        simp [parseEventPayload, he, hj, hev]

/-- Witness for C3's corrected statement at concrete strings. -/
theorem c3_witness :
    parseEventPayload (.str "  ") none 0 = .ok none ∧
    parseEventPayload (.str " hi ") none 5 =
      .ok (some ⟨.str "unknown", .str (jsTrim " hi "), .bool false, .ofNow 5,
                 .unknown⟩) ∧
    parseEventPayload (.str "hi") none 7 ≠ .error () := by
  exact ⟨(c3_string_decode "  " none 0).1 (by decide),
         (c3_string_decode " hi " none 5).2.1 (by decide) (by decide),
         (c3_string_decode "hi" none 7).2.2 (by decide)⟩

theorem parseEventPayload_obj_ok (e : Json) (now : Nat)
    (h1 : e.isObj = true) (h2 : dataFieldOk e) :
    ∃ ev, parseEventPayload (payloadOf e) (some e) now = .ok (some ev) := by
  cases e with
  | obj fs =>
    rcases hd : (Json.obj fs).get ("data") with _ | v
    · have hp : payloadOf (Json.obj fs) = Json.obj fs := by
        simp [payloadOf, hd]
      rw [hp]
      exact parseRecord_ok (Json.obj fs) (some (Json.obj fs)) now (by simp)
    · simp only [dataFieldOk, hd] at h2
      cases v with
      | null =>
        have hp : payloadOf (Json.obj fs) = Json.obj fs := by
          simp [payloadOf, hd]
        rw [hp]
        exact parseRecord_ok (Json.obj fs) (some (Json.obj fs)) now (by simp)
      | str s =>
        have hp : payloadOf (Json.obj fs) = Json.str s := by
          simp [payloadOf, hd]
        rw [hp]
        obtain ⟨hne, hnn⟩ := h2
        rcases hj : jsonParse (jsTrim s) with _ | data
        · exact ⟨⟨.str "unknown", .str (jsTrim s), .bool false, .ofNow now,
                  getEventType ("")⟩,
                 by simp [parseEventPayload, hj, if_neg hne]⟩
        · have hdn : data ≠ Json.null := by
            rintro rfl
            exact hnn hj
          obtain ⟨ev, hev⟩ := parseRecord_ok data (some (Json.obj fs)) now hdn
          exact ⟨ev, by simp [parseEventPayload, hj, if_neg hne, hev]⟩
      | bool b =>
        have hp : payloadOf (Json.obj fs) = Json.bool b := by
          simp [payloadOf, hd]
        rw [hp]
        exact parseRecord_ok (Json.bool b) (some (Json.obj fs)) now (by simp)
      | num lit =>
        have hp : payloadOf (Json.obj fs) = Json.num lit := by
          simp [payloadOf, hd]
        rw [hp]
        exact parseRecord_ok (Json.num lit) (some (Json.obj fs)) now (by simp)
      | arr xs =>
        have hp : payloadOf (Json.obj fs) = Json.arr xs := by
          simp [payloadOf, hd]
        rw [hp]
        exact parseRecord_ok (Json.arr xs) (some (Json.obj fs)) now (by simp)
      | obj gs =>
        have hp : payloadOf (Json.obj fs) = Json.obj gs := by
          simp [payloadOf, hd]
        rw [hp]
        exact parseRecord_ok (Json.obj gs) (some (Json.obj fs)) now (by simp)
  | null => simp [Json.isObj] at h1
  | bool b => simp [Json.isObj] at h1
  | num lit => simp [Json.isObj] at h1
  | str s => simp [Json.isObj] at h1
  | arr xs => simp [Json.isObj] at h1

theorem emitItems_cons (now : Nat) (e : Json) (rest : List Json) (c : Option Json)
    (h : e ≠ Json.null) :
    emitItems now (e :: rest) c =
      (let c2 := match seqIdOf e with
        | some v => some v
        | none => c
       match parseEventPayload (payloadOf e) (some e) now with
       | .error _ => ⟨c2, [], true⟩
       | .ok none => emitItems now rest c2
       | .ok (some ev) =>
         let r := emitItems now rest c2
         ⟨r.cursor, ev :: r.events, r.threw⟩) := by
  cases e with
  | null => exact absurd rfl h
  | bool b => rfl
  | num lit => rfl
  | str s => rfl
  | arr xs => rfl
  | obj fs => rfl

theorem emitItems_decodes (now : Nat) :
    ∀ (elems : List Json) (c : Option Json),
      (∀ e ∈ elems, e.isObj = true ∧ dataFieldOk e) →
      (emitItems now elems c).threw = false ∧
      List.Forall₂
        (fun e ev => parseEventPayload (payloadOf e) (some e) now = .ok (some ev))
        elems (emitItems now elems c).events
  | [], _, _ => by simp [emitItems]
  | e :: rest, c, h => by
    obtain ⟨h1, h2⟩ := h e (by simp)
    have hrest : ∀ x ∈ rest, x.isObj = true ∧ dataFieldOk x := fun x hx =>
      h x (by simp [hx])
    obtain ⟨ev, hev⟩ := parseEventPayload_obj_ok e now h1 h2
    have hnn : e ≠ Json.null := by
      rintro rfl
      simp [Json.isObj] at h1
    rw [emitItems_cons now e rest c hnn]
    simp only [hev]
    obtain ⟨iht, ihf⟩ := emitItems_decodes now rest
      (match seqIdOf e with
       | some v => some v
       | none => c) hrest
    exact ⟨iht, List.Forall₂.cons hev ihf⟩

/-- Claim C1 (corrected): for a JSON-array body of objects none of which
carries a blank or null-parsing string `data` field, the decoder emits
exactly one event per array element, in array order, each decoded from its
own element (`List.Forall₂` pairs the elements with the emitted events
positionally). -/
theorem c1_array_decode (elems : List Json) (c : Option Json) (now : Nat)
    (h : ∀ e ∈ elems, e.isObj = true ∧ dataFieldOk e) :
    (emitFromResponse (.arr elems) c now).threw = false ∧
    (emitFromResponse (.arr elems) c now).events.length = elems.length ∧
    List.Forall₂
      (fun e ev => parseEventPayload (payloadOf e) (some e) now = .ok (some ev))
      elems (emitFromResponse (.arr elems) c now).events := by
  have harr : emitFromResponse (.arr elems) c now = emitItems now elems c := rfl
  rw [harr]
  obtain ⟨ht, hf⟩ := emitItems_decodes now elems c h
  exact ⟨ht, (hf.length_eq).symm, hf⟩

/-- Witness for C1's corrected statement on a one-object array. -/
theorem c1_witness :
    (emitFromResponse (.arr [Json.obj [("step_id", Json.str "phase:a")]]) none 0).threw
      = false ∧
    (emitFromResponse (.arr [Json.obj [("step_id", Json.str "phase:a")]]) none 0).events.length
      = 1 := by
  have h := c1_array_decode [Json.obj [("step_id", Json.str "phase:a")]] none 0
    (by
      intro e he
      simp only [List.mem_singleton] at he
      subst he
      exact ⟨rfl, by simp [dataFieldOk, Json.get, lookupLast]⟩)
  exact ⟨h.1, h.2.1⟩

theorem emitItems_cursor_free (now : Nat) :
    ∀ (items : List Json) (c c' : Option Json),
      (emitItems now items c).events = (emitItems now items c').events ∧
      (emitItems now items c).threw = (emitItems now items c').threw
  | [], _, _ => ⟨rfl, rfl⟩
  | e :: rest, c, c' => by
    by_cases hnn : e = Json.null
    · subst hnn
      exact ⟨rfl, rfl⟩
    · rw [emitItems_cons now e rest c hnn, emitItems_cons now e rest c' hnn]
      rcases hp : parseEventPayload (payloadOf e) (some e) now with u | ov
      · simp only [hp]
        exact ⟨trivial, trivial⟩
      · cases ov with
        | none =>
          simp only [hp]
          exact emitItems_cursor_free now rest _ _
        | some ev =>
          simp only [hp]
          obtain ⟨he, ht⟩ := emitItems_cursor_free now rest
            (match seqIdOf e with
             | some v => some v
             | none => c)
            (match seqIdOf e with
             | some v => some v
             | none => c')
          exact ⟨by rw [he], by rw [ht]⟩

theorem emitSseEntries_cursor_free (now : Nat) :
    ∀ (es : List SseEntry) (c c' : Option Json),
      (emitSseEntries now es c).events = (emitSseEntries now es c').events ∧
      (emitSseEntries now es c).threw = (emitSseEntries now es c').threw
  | [], _, _ => ⟨rfl, rfl⟩
  | e :: rest, c, c' => by
    simp only [emitSseEntries]
    rcases hp : parseEventPayload (.str e.data)
      (match e.id with
       | some i => if i != "" then some (.obj [("SeqID", .str i)]) else none
       | none => none) now with u | ov
    · simp only [hp]
      exact ⟨trivial, trivial⟩
    · cases ov with
      | none =>
        simp only [hp]
        exact emitSseEntries_cursor_free now rest _ _
      | some ev =>
        simp only [hp]
        obtain ⟨he, ht⟩ := emitSseEntries_cursor_free now rest
          (match e.id with
           | some i => if i != "" then some (.str i) else c
           | none => c)
          (match e.id with
           | some i => if i != "" then some (.str i) else c'
           | none => c')
        exact ⟨by rw [he], by rw [ht]⟩

theorem emitFromResponse_cursor_free (raw : Json) (c c' : Option Json) (now : Nat) :
    (emitFromResponse raw c now).events = (emitFromResponse raw c' now).events ∧
    (emitFromResponse raw c now).threw = (emitFromResponse raw c' now).threw := by
  cases raw with
  | null => exact ⟨rfl, rfl⟩
  | str s =>
    simp only [emitFromResponse]
    by_cases h1 : jsTrim s = ""
    · simp only [h1, if_pos rfl]
      exact ⟨rfl, rfl⟩
    · simp only [if_neg h1]
      by_cases h2 : (jsStartsWith (jsTrim s) ("id:") || jsStartsWith (jsTrim s) ("data:")
          || hasSubstr (jsTrim s) ("\ndata:")) = true
      · simp only [h2, if_true]
        exact emitSseEntries_cursor_free now (parseSseText (jsTrim s)) c c'
      · simp only [Bool.not_eq_true] at h2
        simp only [h2, Bool.false_eq_true, if_false]
        rcases hp : parseEventPayload (.str (jsTrim s)) none now with u | ov
        · exact ⟨rfl, rfl⟩
        · cases ov with
          | none => exact ⟨rfl, rfl⟩
          | some ev => exact ⟨rfl, rfl⟩
  | bool b =>
    rcases hi : itemsOf (Json.bool b) with u | items
    · simp only [emitFromResponse, hi]
      exact ⟨trivial, trivial⟩
    · simp only [emitFromResponse, hi]
      exact emitItems_cursor_free now items c c'
  | num lit =>
    rcases hi : itemsOf (Json.num lit) with u | items
    · simp only [emitFromResponse, hi]
      exact ⟨trivial, trivial⟩
    · simp only [emitFromResponse, hi]
      exact emitItems_cursor_free now items c c'
  | arr xs =>
    rcases hi : itemsOf (Json.arr xs) with u | items
    · simp only [emitFromResponse, hi]
      exact ⟨trivial, trivial⟩
    · simp only [emitFromResponse, hi]
      exact emitItems_cursor_free now items c c'
  | obj fs =>
    rcases hi : itemsOf (Json.obj fs) with u | items
    · simp only [emitFromResponse, hi]
      exact ⟨trivial, trivial⟩
    · simp only [emitFromResponse, hi]
      exact emitItems_cursor_free now items c c'

theorem decodeBody_cursor_free (text : String) (c c' : Option Json) (now : Nat) :
    (decodeBody text c now).events = (decodeBody text c' now).events ∧
    (decodeBody text c now).threw = (decodeBody text c' now).threw := by
  rcases hj : jsonParse text with _ | j
  · simp only [decodeBody, hj]
    exact emitFromResponse_cursor_free (.str text) c c' now
  · simp only [decodeBody, hj]
    obtain ⟨he1, ht1⟩ := emitFromResponse_cursor_free j c c' now
    by_cases hth : (emitFromResponse j c now).threw = true
    · have hth' : (emitFromResponse j c' now).threw = true := by rw [← ht1]; exact hth
      simp only [hth, hth', if_true]
      obtain ⟨he2, ht2⟩ := emitFromResponse_cursor_free (.str text)
        (emitFromResponse j c now).cursor (emitFromResponse j c' now).cursor now
      exact ⟨by rw [he1, he2], by rw [ht2]⟩
    · have hth' : ¬ (emitFromResponse j c' now).threw = true := by rw [← ht1]; exact hth
      simp only [hth, hth', if_false]
      exact ⟨he1, ht1⟩

theorem trimList_fix (cs : List Char) (h : trimList cs = cs) :
    cs.dropWhile jsWs = cs := by
  have hsub : (cs.dropWhile jsWs).Sublist cs := List.dropWhile_sublist _
  apply hsub.eq_of_length
  have l1 : (trimList cs).length ≤ (cs.dropWhile jsWs).length := by
    unfold trimList dropRightWs
    calc ((cs.dropWhile jsWs).reverse.dropWhile jsWs).reverse.length
        = ((cs.dropWhile jsWs).reverse.dropWhile jsWs).length :=
          List.length_reverse _
      _ ≤ (cs.dropWhile jsWs).reverse.length :=
          (List.dropWhile_sublist _).length_le
      _ = (cs.dropWhile jsWs).length := List.length_reverse _
  have l2 : (cs.dropWhile jsWs).length ≤ cs.length := hsub.length_le
  rw [h] at l1
  omega

theorem jsTrim_space_cons (s : String) (h : jsTrim s = s) :
    jsTrim (String.mk (' ' :: s.data)) = s := by
  have hl : trimList s.data = s.data := congrArg String.data h
  show String.mk (trimList (' ' :: s.data)) = s
  have hstep : trimList (' ' :: s.data) = trimList s.data := by
    unfold trimList
    rw [show (' ' :: s.data).dropWhile jsWs = s.data.dropWhile jsWs by
      simp [List.dropWhile_cons, jsWs]]
  rw [hstep, hl]

theorem parseEventPayload_str_ok (d : String) (fb : Option Json) (now : Nat)
    (ht : jsTrim d = d) (hne : d ≠ "") (hnn : jsonParse d ≠ some Json.null) :
    ∃ ev, parseEventPayload (.str d) fb now = .ok (some ev) := by
  have htne : jsTrim d ≠ "" := by
    rw [ht]
    exact hne
  rcases hj : jsonParse (jsTrim d) with _ | data
  · exact ⟨⟨.str "unknown", .str (jsTrim d), .bool false, .ofNow now,
            getEventType ("")⟩,
           by simp [parseEventPayload, hj, if_neg htne]⟩
  · have hd : data ≠ Json.null := by
      rintro rfl
      rw [ht] at hj
      exact hnn hj
    obtain ⟨ev, hev⟩ := parseRecord_ok data fb now hd
    exact ⟨ev, by simp [parseEventPayload, hj, if_neg htne, hev]⟩

theorem parseSseLines_render :
    ∀ (fs : List SseFrame), (∀ f ∈ fs, wfFrame f) →
      parseSseLines (renderSseLines fs) none [] =
        fs.map (fun f => SseEntry.mk (some f.id) f.data)
  | [], _ => by simp [renderSseLines, parseSseLines, flushEntry, flushCond]
  | [f], h => by
    obtain ⟨hid, hidne, _, hds, _, _⟩ := h f (by simp)
    have e1 : jsTrim (String.mk (' ' :: f.id.data)) = f.id := jsTrim_space_cons f.id hid
    have e2 : jsTrimStart (String.mk f.data.data) = f.data := hds
    simp only [renderSseLines]
    simp [parseSseLines, e1, e2, flushEntry, flushCond, hidne, joinNl]
  | f :: g :: rest, h => by
    obtain ⟨hid, hidne, _, hds, _, _⟩ := h f (by simp)
    have hrest : ∀ x ∈ g :: rest, wfFrame x := fun x hx => h x (by simp [hx])
    have e1 : jsTrim (String.mk (' ' :: f.id.data)) = f.id := jsTrim_space_cons f.id hid
    have e2 : jsTrimStart (String.mk f.data.data) = f.data := hds
    have ih := parseSseLines_render (g :: rest) hrest
    simp only [renderSseLines]
    simp [parseSseLines, e1, e2, flushEntry, flushCond, hidne, joinNl, ih]

theorem emitSseEntries_frames (now : Nat) :
    ∀ (fs : List SseFrame) (c : Option Json), (∀ f ∈ fs, wfFrame f) →
      (emitSseEntries now (fs.map (fun f => SseEntry.mk (some f.id) f.data)) c).threw
        = false ∧
      (emitSseEntries now (fs.map (fun f => SseEntry.mk (some f.id) f.data)) c).events.length
        = fs.length ∧
      (emitSseEntries now (fs.map (fun f => SseEntry.mk (some f.id) f.data)) c).cursor
        = fs.foldl (fun _ f => some (Json.str f.id)) c
  | [], c, _ => by simp [emitSseEntries]
  | f :: rest, c, h => by
    obtain ⟨hid, hidne, hdt, hds, hdne, hdn⟩ := h f (by simp)
    have hrest : ∀ x ∈ rest, wfFrame x := fun x hx => h x (by simp [hx])
    obtain ⟨ev, hev⟩ := parseEventPayload_str_ok f.data
      (some (Json.obj [("SeqID", Json.str f.id)])) now hdt hdne hdn
    have hb : (f.id != "") = true := by simpa using hidne
    obtain ⟨iht, ihl, ihc⟩ := emitSseEntries_frames now rest (some (.str f.id)) hrest
    simp only [List.map_cons, emitSseEntries, hb, if_true, hev]
    exact ⟨iht, by simp [ihl], by simp [ihc]⟩

theorem foldl_last_id :
    ∀ (fs : List SseFrame) (c : Option Json) (h : fs ≠ []),
      fs.foldl (fun _ f => some (Json.str f.id)) c = some (.str ((fs.getLast h).id))
  | [], _, h => absurd rfl h
  | [f], c, _ => by simp
  | f :: g :: rest, c, _ => by
    rw [List.foldl_cons, List.getLast_cons (by simp)]
    exact foldl_last_id (g :: rest) _ (by simp)

/-- Claim C2 (corrected): for an SSE body rendering N frames, each with a
non-empty id and a non-blank data payload that does not JSON-parse to
`null`, the decoder emits exactly N sub-events and leaves the cursor at
the last frame's id.  (Without the data conditions a frame can emit
nothing or throw; see the counterexample.) -/
theorem c2_sse_decode (frames : List SseFrame) (text : String) (c : Option Json)
    (now : Nat) (hwf : ∀ f ∈ frames, wfFrame f) (hne : frames ≠ [])
    (htext : splitLines text = renderSseLines frames)
    (htrim : jsTrim text = text)
    (hdet : jsStartsWith text ("id:") = true) :
    (emitFromResponse (.str text) c now).threw = false ∧
    (emitFromResponse (.str text) c now).events.length = frames.length ∧
    (emitFromResponse (.str text) c now).cursor =
      some (.str ((frames.getLast hne).id)) := by
  have htz : text ≠ "" := by
    rintro rfl
    simp [jsStartsWith, List.isPrefixOf] at hdet
  have hemit : emitFromResponse (.str text) c now =
      emitSseEntries now (parseSseText text) c := by
    simp only [emitFromResponse, htrim]
    rw [if_neg htz, if_pos (by rw [hdet]; simp)]
  rw [hemit]
  have hparse : parseSseText text = frames.map (fun f => SseEntry.mk (some f.id) f.data) := by
    unfold parseSseText
    rw [htext]
    exact parseSseLines_render frames hwf
  rw [hparse]
  obtain ⟨h1, h2, h3⟩ := emitSseEntries_frames now frames c hwf
  exact ⟨h1, h2, by rw [h3]; exact foldl_last_id frames c hne⟩

/-- Witness for C2's corrected statement on a two-frame SSE body. -/
theorem c2_witness :
    (emitFromResponse (.str "id: 1\ndata:alpha\n\nid: 2\ndata:beta") none 0).threw
      = false ∧
    (emitFromResponse (.str "id: 1\ndata:alpha\n\nid: 2\ndata:beta") none 0).events.length
      = 2 ∧
    (emitFromResponse (.str "id: 1\ndata:alpha\n\nid: 2\ndata:beta") none 0).cursor
      = some (.str "2") := by
  have h := c2_sse_decode [⟨"1", "alpha"⟩, ⟨"2", "beta"⟩]
    "id: 1\ndata:alpha\n\nid: 2\ndata:beta" none 0
    (by
      intro f hf
      simp only [List.mem_cons, List.mem_singleton] at hf
      rcases hf with rfl | rfl | h
      · exact ⟨by decide, by decide, by decide, by decide, by decide, by decide⟩
      · exact ⟨by decide, by decide, by decide, by decide, by decide, by decide⟩
      · exact absurd h (by simp))
    (by simp)
    (by decide)
    (by decide)
    (by decide)
  exact h

/-- Claim C4 (corrected): the decoder's event output is independent of the
externally threaded cursor, so decoding the same body twice in succession
— the second decode starting from the cursor the first one produced — at
the same client clock reading yields an equal event sequence.  (Across
different clock readings equality fails, because the fallback timestamp is
`Date.now()`; see the counterexample.) -/
theorem c4_decode_idempotent (body : String) (c : Option Json) (now : Nat) :
    (decodeBody body (decodeBody body c now).cursor now).events =
      (decodeBody body c now).events := by
  exact (decodeBody_cursor_free body (decodeBody body c now).cursor c now).1

theorem pollCatch_prepend (outs : List Out)
    (t : List Out × Bool × Option Json × LoopExit) :
    pollCatch (outs ++ t.1, t.2) = outs ++ pollCatch t := by
  rcases t with ⟨o, hc, c, ex⟩
  cases ex with
  | finished => rfl
  | thrown name msg =>
    simp only [pollCatch]
    by_cases h : name = "AbortError"
    · simp [h]
    · simp [h]

theorem pollGo_cons_204 (now : Nat) (r : Resp) (rest : List Resp) (hc : Bool)
    (c : Option Json) (h : r.status = 204) :
    pollGo now (r :: rest) hc c =
      ((markConnected hc).1 ++ (pollGo now rest (markConnected hc).2 c).1,
       (pollGo now rest (markConnected hc).2 c).2) := by
  simp only [pollGo, if_pos h]

theorem pollGo_cons_bad (now : Nat) (r : Resp) (rest : List Resp) (hc : Bool)
    (c : Option Json) (h1 : ¬(200 ≤ r.status ∧ r.status < 300))
    (h2 : r.status ≠ 101) (h3 : r.status ≠ 204) :
    pollGo now (r :: rest) hc c =
      ([], hc, c, .thrown ("Error")
        ("Events request failed: " ++ toString r.status ++ " - " ++ r.body)) := by
  simp only [pollGo, if_neg h3, if_pos (And.intro h1 h2)]

theorem pollGo_cons_blank (now : Nat) (r : Resp) (rest : List Resp) (hc : Bool)
    (c : Option Json) (h3 : ¬ r.status = 204)
    (hok : ¬(¬(200 ≤ r.status ∧ r.status < 300) ∧ r.status ≠ 101))
    (hb : jsTrim r.body = "") :
    pollGo now (r :: rest) hc c =
      ((markConnected hc).1 ++ (pollGo now rest (markConnected hc).2 c).1,
       (pollGo now rest (markConnected hc).2 c).2) := by
  simp only [pollGo, if_neg h3, if_neg hok, if_pos hb]

theorem pollGo_cons_throw (now : Nat) (r : Resp) (rest : List Resp) (hc : Bool)
    (c : Option Json) (h3 : ¬ r.status = 204)
    (hok : ¬(¬(200 ≤ r.status ∧ r.status < 300) ∧ r.status ≠ 101))
    (hb : ¬ jsTrim r.body = "") (ht : (decodeBody r.body c now).threw = true) :
    pollGo now (r :: rest) hc c =
      ((markConnected hc).1 ++ (decodeBody r.body c now).events.map Out.event,
       (markConnected hc).2, (decodeBody r.body c now).cursor,
       .thrown ("TypeError") ("Cannot read properties of null")) := by
  simp only [pollGo, if_neg h3, if_neg hok, if_neg hb, if_pos ht]

theorem pollGo_cons_decode (now : Nat) (r : Resp) (rest : List Resp) (hc : Bool)
    (c : Option Json) (h3 : ¬ r.status = 204)
    (hok : ¬(¬(200 ≤ r.status ∧ r.status < 300) ∧ r.status ≠ 101))
    (hb : ¬ jsTrim r.body = "") (ht : ¬ (decodeBody r.body c now).threw = true) :
    pollGo now (r :: rest) hc c =
      ((markConnected hc).1 ++ (decodeBody r.body c now).events.map Out.event ++
         (pollGo now rest (markConnected hc).2 (decodeBody r.body c now).cursor).1,
       (pollGo now rest (markConnected hc).2 (decodeBody r.body c now).cursor).2) := by
  simp only [pollGo, if_neg h3, if_neg hok, if_neg hb, if_neg ht]

theorem pollAborted_cons_204 (now : Nat) (r : Resp) (rest : List Resp) (n : Nat)
    (inflight hc : Bool) (c : Option Json) (h : r.status = 204) :
    pollAborted now (r :: rest) (n + 1) inflight hc c =
      ((markConnected hc).1 ++
         (pollAborted now rest n inflight (markConnected hc).2 c).1,
       (pollAborted now rest n inflight (markConnected hc).2 c).2) := by
  simp only [pollAborted, if_pos h]

theorem pollAborted_cons_bad (now : Nat) (r : Resp) (rest : List Resp) (n : Nat)
    (inflight hc : Bool) (c : Option Json)
    (h1 : ¬(200 ≤ r.status ∧ r.status < 300)) (h2 : r.status ≠ 101)
    (h3 : r.status ≠ 204) :
    pollAborted now (r :: rest) (n + 1) inflight hc c =
      ([], hc, c, .thrown ("Error")
        ("Events request failed: " ++ toString r.status ++ " - " ++ r.body)) := by
  simp only [pollAborted, if_neg h3, if_pos (And.intro h1 h2)]

theorem pollAborted_cons_blank (now : Nat) (r : Resp) (rest : List Resp) (n : Nat)
    (inflight hc : Bool) (c : Option Json) (h3 : ¬ r.status = 204)
    (hok : ¬(¬(200 ≤ r.status ∧ r.status < 300) ∧ r.status ≠ 101))
    (hb : jsTrim r.body = "") :
    pollAborted now (r :: rest) (n + 1) inflight hc c =
      ((markConnected hc).1 ++
         (pollAborted now rest n inflight (markConnected hc).2 c).1,
       (pollAborted now rest n inflight (markConnected hc).2 c).2) := by
  simp only [pollAborted, if_neg h3, if_neg hok, if_pos hb]

theorem pollAborted_cons_throw (now : Nat) (r : Resp) (rest : List Resp) (n : Nat)
    (inflight hc : Bool) (c : Option Json) (h3 : ¬ r.status = 204)
    (hok : ¬(¬(200 ≤ r.status ∧ r.status < 300) ∧ r.status ≠ 101))
    (hb : ¬ jsTrim r.body = "") (ht : (decodeBody r.body c now).threw = true) :
    pollAborted now (r :: rest) (n + 1) inflight hc c =
      ((markConnected hc).1 ++ (decodeBody r.body c now).events.map Out.event,
       (markConnected hc).2, (decodeBody r.body c now).cursor,
       .thrown ("TypeError") ("Cannot read properties of null")) := by
  simp only [pollAborted, if_neg h3, if_neg hok, if_neg hb, if_pos ht]

theorem pollAborted_cons_decode (now : Nat) (r : Resp) (rest : List Resp) (n : Nat)
    (inflight hc : Bool) (c : Option Json) (h3 : ¬ r.status = 204)
    (hok : ¬(¬(200 ≤ r.status ∧ r.status < 300) ∧ r.status ≠ 101))
    (hb : ¬ jsTrim r.body = "") (ht : ¬ (decodeBody r.body c now).threw = true) :
    pollAborted now (r :: rest) (n + 1) inflight hc c =
      ((markConnected hc).1 ++ (decodeBody r.body c now).events.map Out.event ++
         (pollAborted now rest n inflight (markConnected hc).2
           (decodeBody r.body c now).cursor).1,
       (pollAborted now rest n inflight (markConnected hc).2
         (decodeBody r.body c now).cursor).2) := by
  simp only [pollAborted, if_neg h3, if_neg hok, if_neg hb, if_neg ht]

theorem countP_fc_map_event (evs : List JobEvent) :
    ((evs.map Out.event).countP isFirstConnect) = 0 := by
  rw [List.countP_eq_zero]
  intro a ha
  obtain ⟨e, _, rfl⟩ := List.mem_map.mp ha
  simp [isFirstConnect]

theorem pollGo_true_no_fc (now : Nat) :
    ∀ (rs : List Resp) (c : Option Json),
      ((pollGo now rs true c).1.countP isFirstConnect) = 0
  | [], _ => rfl
  | r :: rest, c => by
    by_cases h204 : r.status = 204
    · rw [pollGo_cons_204 now r rest true c h204]
      simpa [markConnected] using pollGo_true_no_fc now rest c
    · by_cases hbad : ¬(200 ≤ r.status ∧ r.status < 300) ∧ r.status ≠ 101
      · rw [pollGo_cons_bad now r rest true c hbad.1 hbad.2 h204]
        rfl
      · by_cases hblank : jsTrim r.body = ""
        · rw [pollGo_cons_blank now r rest true c h204 hbad hblank]
          simpa [markConnected] using pollGo_true_no_fc now rest c
        · by_cases hthrew : (decodeBody r.body c now).threw = true
          · rw [pollGo_cons_throw now r rest true c h204 hbad hblank hthrew]
            simp [markConnected, countP_fc_map_event, isFirstConnect]
          · rw [pollGo_cons_decode now r rest true c h204 hbad hblank hthrew]
            simp [markConnected, List.countP_append, countP_fc_map_event,
              isFirstConnect,
              pollGo_true_no_fc now rest (decodeBody r.body c now).cursor]

theorem pollGo_fc_once (now : Nat) :
    ∀ (rs : List Resp) (c : Option Json),
      ((pollGo now rs false c).1.countP isFirstConnect) ≤ 1
  | [], _ => by
    show ((([], false, _, LoopExit.finished) :
      List Out × Bool × Option Json × LoopExit).1.countP isFirstConnect) ≤ 1
    simp
  | r :: rest, c => by
    by_cases h204 : r.status = 204
    · rw [pollGo_cons_204 now r rest false c h204]
      simp [markConnected, List.countP_cons, isFirstConnect,
        pollGo_true_no_fc now rest c]
    · by_cases hbad : ¬(200 ≤ r.status ∧ r.status < 300) ∧ r.status ≠ 101
      · rw [pollGo_cons_bad now r rest false c hbad.1 hbad.2 h204]
        simp
      · by_cases hblank : jsTrim r.body = ""
        · rw [pollGo_cons_blank now r rest false c h204 hbad hblank]
          simp [markConnected, List.countP_cons, isFirstConnect,
            pollGo_true_no_fc now rest c]
        · by_cases hthrew : (decodeBody r.body c now).threw = true
          · rw [pollGo_cons_throw now r rest false c h204 hbad hblank hthrew]
            simp [markConnected, List.countP_cons, isFirstConnect,
              countP_fc_map_event]
          · rw [pollGo_cons_decode now r rest false c h204 hbad hblank hthrew]
            simp [markConnected, List.countP_cons, List.countP_append,
              isFirstConnect, countP_fc_map_event,
              pollGo_true_no_fc now rest (decodeBody r.body c now).cursor]

theorem pollCatch_fc (t : List Out × Bool × Option Json × LoopExit) :
    ((pollCatch t).countP isFirstConnect) = (t.1.countP isFirstConnect) := by
  rcases t with ⟨o, hc, c, ex⟩
  cases ex with
  | finished => rfl
  | thrown name msg =>
    simp only [pollCatch]
    by_cases h : name = "AbortError"
    · simp [h]
    · simp [h, List.countP_append, isFirstConnect]

/-- Claim C6: `onFirstConnect` fires at most once over the whole
subscription (first conjunct, over every response sequence), and on the
concrete 204-then-200 scenario the trace is exactly one first-connect
followed by the two array events in array order (second conjunct). -/
theorem c6_first_connect_once :
    (∀ (now : Nat) (rs : List Resp) (c : Option Json),
       ((pollCatch (pollGo now rs false c)).countP isFirstConnect) ≤ 1) ∧
    pollGo 0 [⟨204, ""⟩,
      ⟨200, "[\x7b\"step_id\":\"phase:alpha\",\"message\":\"x\"\x7d,\x7b\"step_id\":\"chat:token:1\",\"message\":\"y\"\x7d]"⟩]
      false none =
      ([.firstConnect,
        .event ⟨.str "phase:alpha", .str "x", .bool false, .ofNow 0, .phase⟩,
        .event ⟨.str "chat:token:1", .str "y", .bool false, .ofNow 0, .chatToken⟩],
       true, none, .finished) := by
  constructor
  · intro now rs c
    rw [pollCatch_fc]
    exact pollGo_fc_once now rs c
  · decide

theorem pollGo_append (now : Nat) :
    ∀ (xs ys : List Resp) (hc : Bool) (c : Option Json),
      (pollGo now xs hc c).2.2.2 = .finished →
      pollGo now (xs ++ ys) hc c =
        ((pollGo now xs hc c).1 ++
           (pollGo now ys (pollGo now xs hc c).2.1 (pollGo now xs hc c).2.2.1).1,
         (pollGo now ys (pollGo now xs hc c).2.1 (pollGo now xs hc c).2.2.1).2)
  | [], ys, hc, c, _ => by
    simp [pollGo]
  | x :: xs, ys, hc, c, hfin => by
    by_cases h204 : x.status = 204
    · rw [pollGo_cons_204 now x xs hc c h204] at hfin ⊢
      dsimp only at hfin ⊢
      rw [List.cons_append, pollGo_cons_204 now x (xs ++ ys) hc c h204,
        pollGo_append now xs ys (markConnected hc).2 c hfin]
      simp [List.append_assoc]
    · by_cases hbad : ¬(200 ≤ x.status ∧ x.status < 300) ∧ x.status ≠ 101
      · exfalso
        rw [pollGo_cons_bad now x xs hc c hbad.1 hbad.2 h204] at hfin
        exact LoopExit.noConfusion hfin
      · by_cases hblank : jsTrim x.body = ""
        · rw [pollGo_cons_blank now x xs hc c h204 hbad hblank] at hfin ⊢
          dsimp only at hfin ⊢
          rw [List.cons_append, pollGo_cons_blank now x (xs ++ ys) hc c h204 hbad hblank,
            pollGo_append now xs ys (markConnected hc).2 c hfin]
          simp [List.append_assoc]
        · by_cases hthrew : (decodeBody x.body c now).threw = true
          · exfalso
            rw [pollGo_cons_throw now x xs hc c h204 hbad hblank hthrew] at hfin
            exact LoopExit.noConfusion hfin
          · rw [pollGo_cons_decode now x xs hc c h204 hbad hblank hthrew] at hfin ⊢
            dsimp only at hfin ⊢
            rw [List.cons_append,
              pollGo_cons_decode now x (xs ++ ys) hc c h204 hbad hblank hthrew,
              pollGo_append now xs ys (markConnected hc).2
                (decodeBody x.body c now).cursor hfin]
            simp [List.append_assoc]

/-- Claim C7: after any cleanly processed prefix, a response whose status
is neither 2xx nor 101 nor 204 makes the loop read the body, raise an
error naming the status and body text, deliver it to `onFatalError`
exactly once, and issue no further polls — the suffix `rest` is absent
from the resulting trace. -/
theorem c7_fatal_status (now : Nat) (pre : List Resp) (r : Resp) (rest : List Resp)
    (hc : Bool) (c : Option Json)
    (h1 : ¬(200 ≤ r.status ∧ r.status < 300)) (h2 : r.status ≠ 101)
    (h3 : r.status ≠ 204)
    (hfin : (pollGo now pre hc c).2.2.2 = .finished) :
    pollCatch (pollGo now (pre ++ r :: rest) hc c) =
      (pollGo now pre hc c).1 ++
        [Out.fatalError
          ("Events request failed: " ++ toString r.status ++ " - " ++ r.body)] := by
  rw [pollGo_append now pre (r :: rest) hc c hfin, pollCatch_prepend,
    pollGo_cons_bad now r rest (pollGo now pre hc c).2.1
      (pollGo now pre hc c).2.2.1 h1 h2 h3]
  simp [pollCatch]

/-- Witness for C7 on a 500 response with body `boom`. -/
theorem c7_witness :
    pollCatch (pollGo 0 [⟨500, "boom"⟩] false none) =
      [Out.fatalError
        ("Events request failed: " ++ toString (500 : Nat) ++ " - " ++ "boom")] := by
  have h := c7_fatal_status 0 [] ⟨500, "boom"⟩ [] false none
    (by decide) (by decide) (by decide) rfl
  simpa [pollGo] using h

theorem pollAborted_eq_take (now : Nat) :
    ∀ (rs : List Resp) (n : Nat) (inflight hc : Bool) (c : Option Json),
      pollCatch (pollAborted now rs n inflight hc c) =
        pollCatch (pollGo now (rs.take n) hc c)
  | rs, 0, inflight, hc, c => by
    cases inflight <;> simp [pollAborted, pollGo, pollCatch]
  | [], n + 1, inflight, hc, c => by
    simp [pollAborted, pollGo, pollCatch]
  | r :: rest, n + 1, inflight, hc, c => by
    rw [List.take_succ_cons]
    by_cases h204 : r.status = 204
    · rw [pollAborted_cons_204 now r rest n inflight hc c h204,
        pollGo_cons_204 now r (rest.take n) hc c h204,
        pollCatch_prepend, pollCatch_prepend,
        pollAborted_eq_take now rest n inflight (markConnected hc).2 c]
    · by_cases hbad : ¬(200 ≤ r.status ∧ r.status < 300) ∧ r.status ≠ 101
      · rw [pollAborted_cons_bad now r rest n inflight hc c hbad.1 hbad.2 h204,
          pollGo_cons_bad now r (rest.take n) hc c hbad.1 hbad.2 h204]
      · by_cases hblank : jsTrim r.body = ""
        · rw [pollAborted_cons_blank now r rest n inflight hc c h204 hbad hblank,
            pollGo_cons_blank now r (rest.take n) hc c h204 hbad hblank,
            pollCatch_prepend, pollCatch_prepend,
            pollAborted_eq_take now rest n inflight (markConnected hc).2 c]
        · by_cases hthrew : (decodeBody r.body c now).threw = true
          · rw [pollAborted_cons_throw now r rest n inflight hc c h204 hbad hblank hthrew,
              pollGo_cons_throw now r (rest.take n) hc c h204 hbad hblank hthrew]
          · rw [pollAborted_cons_decode now r rest n inflight hc c h204 hbad hblank hthrew,
              pollGo_cons_decode now r (rest.take n) hc c h204 hbad hblank hthrew,
              pollCatch_prepend, pollCatch_prepend,
              pollAborted_eq_take now rest n inflight (markConnected hc).2
                (decodeBody r.body c now).cursor]

/-- Claim C8: cancellation is silent — aborting the loop after `n`
iterations (at the loop top, or mid-flight where the aborted fetch's
`AbortError` is swallowed by the name check) produces exactly the callback
trace of the unaborted `n`-response prefix, so the abort itself never
reaches `onFatalError`; and the hook's `reset` leaves no subscription
handle, no poll timer, a cleared error field and `idle` status. -/
theorem c8_cancellation_silent :
    (∀ (now : Nat) (rs : List Resp) (n : Nat) (inflight hc : Bool) (c : Option Json),
       pollCatch (pollAborted now rs n inflight hc c) =
         pollCatch (pollGo now (rs.take n) hc c)) ∧
    (∀ st : HookState,
       (resetHook st).abortRef = false ∧ (resetHook st).pollTimer = false ∧
       (resetHook st).error = none ∧ (resetHook st).status = .idle) := by
  exact ⟨fun now => pollAborted_eq_take now, fun st => ⟨rfl, rfl, rfl, rfl⟩⟩

end JobEventsDemo
